import Mathlib

/-!
Verification of the medication lookup service (`src/main.py`).

The service forwards a medication name to an external generative-model API,
extracts the model's free-form text reply from the response envelope,
parses it with `ast.literal_eval`, and returns the result through a
FastAPI endpoint with response model `MedicationResponse`.

The embedding below models:
* Python literal values (`PyVal`) and a character-level parser for the
  fragment of Python's literal grammar relevant here (strings with the
  common escapes, integers, `True`/`False`/`None`, lists, dicts with
  optional trailing comma, surrounding whitespace).  Floats, tuples,
  sets, bytes and the numeric-style string escapes (`\xHH`, `\uXXXX`,
  `\N{...}`) are outside the model; no theorem below depends on them.
* JSON values (`JsonVal`) with a canonical serializer, used to quantify
  over "well-formed JSON object" inputs.
* The envelope extraction, parsing and HTTP mapping performed by
  `get_medication_info` and the `medication_info` endpoint.
-/

namespace Medication

/-- Python literal values (the fragment produced/consumed by this service). -/
inductive PyVal where
  | str (s : String)
  | int (n : Int)
  | bool (b : Bool)
  | none
  | list (xs : List PyVal)
  | dict (entries : List (PyVal × PyVal))
deriving Repr

/-- Python whitespace characters recognised by `str.strip` and the tokenizer
(space, tab, newline, carriage return, vertical tab, form feed). -/
def isPySpace (c : Char) : Bool :=
  c = ' ' || c = '\t' || c = '\n' || c = '\r' ||
    c = Char.ofNat 11 || c = Char.ofNat 12

/-- Drop leading Python whitespace. -/
def skipWs (cs : List Char) : List Char :=
  cs.dropWhile (fun c => isPySpace c)

/-- Python `str.strip` on the character list: drop leading and trailing whitespace. -/
def stripChars (cs : List Char) : List Char :=
  ((cs.dropWhile (fun c => isPySpace c)).reverse.dropWhile
    (fun c => isPySpace c)).reverse

/-- Python's `str.strip()` with no argument. -/
def pyStrip (s : String) : String :=
  String.mk (stripChars s.data)

/-- Decoding of a single backslash escape inside a Python string literal.
`none` marks escapes outside the model (`\xHH`, `\uXXXX`, `\UXXXXXXXX`,
`\N{...}`, line continuation); for an unrecognised escape Python keeps the
backslash, which is what the final case does. -/
def escapeMap (e : Char) : Option (List Char) :=
  if e = 'n' then some ['\n']
  else if e = 't' then some ['\t']
  else if e = 'r' then some ['\r']
  else if e = '\\' then some ['\\']
  else if e = '\'' then some ['\'']
  else if e = '"' then some ['"']
  else if e = 'x' || e = 'u' || e = 'U' || e = 'N' || e = '\n' then Option.none
  else some ['\\', e]

/-- Parse the body of a Python string literal delimited by quote `q`,
returning the decoded characters and the unconsumed suffix.  A raw newline
inside the literal is a syntax error, as in Python. -/
def parsePyStr (q : Char) : Nat → List Char → Option (List Char × List Char)
  | 0, _ => Option.none
  | _ + 1, [] => Option.none
  | fuel + 1, c :: rest =>
    if c = q then some ([], rest)
    else if c = '\\' then
      match rest with
      | [] => Option.none
      | e :: rest2 =>
        match escapeMap e with
        | Option.none => Option.none
        | some out => (parsePyStr q fuel rest2).map (fun p => (out ++ p.1, p.2))
    else if c = '\n' || c = '\r' then Option.none
    else (parsePyStr q fuel rest).map (fun p => (c :: p.1, p.2))

/-- Value of a list of decimal digit characters. -/
def digitsToNat (ds : List Char) : Nat :=
  ds.foldl (fun acc c => 10 * acc + (c.toNat - 48)) 0

/-- Parse a run of decimal digits at the head of the input.  As in Python,
a multi-digit run with a leading zero is rejected. -/
def parseDigitsAt (cs : List Char) : Option (Nat × List Char) :=
  let ds := cs.takeWhile (fun c => c.isDigit)
  if ds.isEmpty then Option.none
  else if 1 < ds.length && ds.head? = some '0' then Option.none
  else some (digitsToNat ds, cs.dropWhile (fun c => c.isDigit))

/-- Consume an expected literal character run. -/
def expectChars (pat : List Char) (cs : List Char) : Option (List Char) :=
  if pat.isPrefixOf cs then some (cs.drop pat.length) else Option.none

/-- Consume whitespace and then an expected single token character. -/
def expectTok (t : Char) (cs : List Char) : Option (List Char) :=
  match skipWs cs with
  | [] => Option.none
  | d :: rest => if d = t then some rest else Option.none

mutual

/-- Parse one Python literal expression, modelling the expression grammar
accepted by `ast.literal_eval` on the fragment above. -/
def parseVal : Nat → List Char → Option (PyVal × List Char)
  | 0, _ => Option.none
  | fuel + 1, cs =>
    match skipWs cs with
    | [] => Option.none
    | c :: rest =>
      if c = '"' then
        (parsePyStr '"' (rest.length + 1) rest).map
          (fun p => (PyVal.str (String.mk p.1), p.2))
      else if c = '\'' then
        (parsePyStr '\'' (rest.length + 1) rest).map
          (fun p => (PyVal.str (String.mk p.1), p.2))
      else if c = '{' then parseDictBody fuel (skipWs rest)
      else if c = '[' then parseListBody fuel (skipWs rest)
      else if c = '-' then
        (parseDigitsAt (skipWs rest)).map
          (fun p => (PyVal.int (-(p.1 : Int)), p.2))
      else if c.isDigit then
        (parseDigitsAt (c :: rest)).map (fun p => (PyVal.int (p.1 : Int), p.2))
      else if c = 'T' then
        (expectChars ['r', 'u', 'e'] rest).map (fun r => (PyVal.bool true, r))
      else if c = 'F' then
        (expectChars ['a', 'l', 's', 'e'] rest).map
          (fun r => (PyVal.bool false, r))
      else if c = 'N' then
        (expectChars ['o', 'n', 'e'] rest).map (fun r => (PyVal.none, r))
      else Option.none

/-- Parse the interior of a dict literal, the opening brace and any
whitespace after it already consumed. -/
def parseDictBody : Nat → List Char → Option (PyVal × List Char)
  | 0, _ => Option.none
  | fuel + 1, cs =>
    match cs with
    | [] => Option.none
    | d :: rest =>
      if d = '}' then some (PyVal.dict [], rest)
      else
        (parseDictItems fuel (d :: rest)).map (fun p => (PyVal.dict p.1, p.2))

/-- Parse one or more `key: value` items followed by `}`; Python allows a
trailing comma before the closing brace. -/
def parseDictItems :
    Nat → List Char → Option (List (PyVal × PyVal) × List Char)
  | 0, _ => Option.none
  | fuel + 1, cs =>
    match parseVal fuel cs with
    | Option.none => Option.none
    | some (k, cs1) =>
      match expectTok ':' cs1 with
      | Option.none => Option.none
      | some cs2 =>
        match parseVal fuel cs2 with
        | Option.none => Option.none
        | some (v, cs3) =>
          match skipWs cs3 with
          | [] => Option.none
          | d :: cs4 =>
            if d = '}' then some ([(k, v)], cs4)
            else if d = ',' then
              match skipWs cs4 with
              | [] => Option.none
              | e :: cs5 =>
                if e = '}' then some ([(k, v)], cs5)
                else
                  (parseDictItems fuel (e :: cs5)).map
                    (fun p => ((k, v) :: p.1, p.2))
            else Option.none

/-- Parse the interior of a list literal, the opening bracket and any
whitespace after it already consumed. -/
def parseListBody : Nat → List Char → Option (PyVal × List Char)
  | 0, _ => Option.none
  | fuel + 1, cs =>
    match cs with
    | [] => Option.none
    | d :: rest =>
      if d = ']' then some (PyVal.list [], rest)
      else
        (parseListItems fuel (d :: rest)).map (fun p => (PyVal.list p.1, p.2))

/-- Parse one or more list elements followed by `]`; Python allows a
trailing comma before the closing bracket. -/
def parseListItems : Nat → List Char → Option (List PyVal × List Char)
  | 0, _ => Option.none
  | fuel + 1, cs =>
    match parseVal fuel cs with
    | Option.none => Option.none
    | some (v, cs1) =>
      match skipWs cs1 with
      | [] => Option.none
      | d :: cs2 =>
        if d = ']' then some ([v], cs2)
        else if d = ',' then
          match skipWs cs2 with
          | [] => Option.none
          | e :: cs3 =>
            if e = ']' then some ([v], cs3)
            else
              (parseListItems fuel (e :: cs3)).map
                (fun p => (v :: p.1, p.2))
        else Option.none

end

/-- Model of `ast.literal_eval` on the grammar above: parse one expression and
require that only whitespace remains. -/
def literalEval (s : String) : Option PyVal :=
  match parseVal (2 * s.data.length + 2) s.data with
  | Option.none => Option.none
  | some (v, rest) => if skipWs rest = [] then some v else Option.none

/-! ## JSON values

Used to quantify over "well-formed JSON object" model outputs.  The three
types are mutual so that standard mutual induction is available; numbers
are modelled as integers (floats are outside the model). -/

mutual

inductive JsonVal where
  | str (s : String)
  | int (n : Int)
  | bool (b : Bool)
  | null
  | arr (xs : JsonArr)
  | obj (kvs : JsonObj)

inductive JsonArr where
  | nil
  | cons (hd : JsonVal) (tl : JsonArr)

inductive JsonObj where
  | nil
  | cons (k : String) (v : JsonVal) (tl : JsonObj)

end

/-- Serialization of one character inside a JSON double-quoted string. -/
def escChar (c : Char) : List Char :=
  if c = '"' then ['\\', '"']
  else if c = '\\' then ['\\', '\\']
  else if c = '\n' then ['\\', 'n']
  else if c = '\t' then ['\\', 't']
  else if c = '\r' then ['\\', 'r']
  else [c]

/-- Escape a character list for a double-quoted string literal. -/
def escList : List Char → List Char
  | [] => []
  | c :: l => escChar c ++ escList l

/-- Digit character for `d < 10`. -/
def digitChar (d : Nat) : Char := Char.ofNat (48 + d)

/-- Decimal digits of `n`, most significant first (fuel-indexed). -/
def natSerAux : Nat → Nat → List Char
  | 0, _ => []
  | fuel + 1, n =>
    if n < 10 then [digitChar n]
    else natSerAux fuel (n / 10) ++ [digitChar (n % 10)]

/-- Decimal digits of `n`. -/
def natSer (n : Nat) : List Char := natSerAux (n + 1) n

/-- Decimal serialization of an integer. -/
def intSer (n : Int) : List Char :=
  if n < 0 then '-' :: natSer n.natAbs else natSer n.toNat

mutual

/-- Canonical JSON serialization (compact: no whitespace between tokens). -/
def serV : JsonVal → List Char
  | .str s => '"' :: (escList s.data ++ ['"'])
  | .int n => intSer n
  | .bool true => ['t', 'r', 'u', 'e']
  | .bool false => ['f', 'a', 'l', 's', 'e']
  | .null => ['n', 'u', 'l', 'l']
  | .arr .nil => ['[', ']']
  | .arr (.cons v tl) => '[' :: (serV v ++ serArrTail tl ++ [']'])
  | .obj .nil => ['{', '}']
  | .obj (.cons k v tl) => '{' :: (serEntry k v ++ serObjTail tl ++ ['}'])

/-- One `"key":value` object entry. -/
def serEntry (k : String) (v : JsonVal) : List Char :=
  '"' :: (escList k.data ++ ['"', ':']) ++ serV v

/-- Serialization `,elem` for each remaining array element. -/
def serArrTail : JsonArr → List Char
  | .nil => []
  | .cons v tl => ',' :: serV v ++ serArrTail tl

/-- Serialization `,"key":value` for each remaining object entry. -/
def serObjTail : JsonObj → List Char
  | .nil => []
  | .cons k v tl => ',' :: serEntry k v ++ serObjTail tl

end

/-- The canonical text of a JSON value. -/
def serializeJson (j : JsonVal) : String := String.mk (serV j)

mutual

/-- The Python value whose literal text coincides with the JSON text, when
one exists.  JSON spells booleans and null as `true`/`false`/`null`, which
are not Python literals, so those have no counterpart. -/
def jsonToPy : JsonVal → Option PyVal
  | .str s => some (PyVal.str s)
  | .int n => some (PyVal.int n)
  | .bool _ => Option.none
  | .null => Option.none
  | .arr xs => (jsonToPyArr xs).map PyVal.list
  | .obj kvs => (jsonToPyObj kvs).map PyVal.dict

def jsonToPyArr : JsonArr → Option (List PyVal)
  | .nil => some []
  | .cons v tl =>
    match jsonToPy v, jsonToPyArr tl with
    | some pv, some ptl => some (pv :: ptl)
    | _, _ => Option.none

def jsonToPyObj : JsonObj → Option (List (PyVal × PyVal))
  | .nil => some []
  | .cons k v tl =>
    match jsonToPy v, jsonToPyObj tl with
    | some pv, some ptl => some ((PyVal.str k, pv) :: ptl)
    | _, _ => Option.none

end

mutual

/-- Parser fuel sufficient for the serialization of `j`. -/
def fuelNeedV : JsonVal → Nat
  | .str _ => 1
  | .int _ => 1
  | .bool _ => 1
  | .null => 1
  | .arr xs => 2 + fuelNeedA xs
  | .obj kvs => 2 + fuelNeedO kvs

def fuelNeedA : JsonArr → Nat
  | .nil => 0
  | .cons v tl => 1 + fuelNeedV v + fuelNeedA tl

def fuelNeedO : JsonObj → Nat
  | .nil => 0
  | .cons _ v tl => 1 + fuelNeedV v + fuelNeedO tl

end

/-! ## The service pipeline (`src/main.py`) -/

/-- The response model validated by FastAPI when the endpoint returns. -/
structure MedicationResponse where
  Medication : String
  specialization : String
  Influence : String
deriving Repr, DecidableEq

/-- Python exceptions that can escape `get_medication_info`. -/
inductive Exc where
  | runtimeError (msg : String)
  | valueError (msg : String)
  | typeError
  | attributeError
deriving Repr, DecidableEq

/-- Exceptions raised by subscripting a decoded JSON value. -/
inductive SubErr where
  | keyError
  | indexError
  | typeError
deriving Repr, DecidableEq

/-- Lookup in a decoded JSON object; duplicate keys resolve to the last
occurrence, as in Python's `json.loads`. -/
def jsonObjLookup : JsonObj → String → Option JsonVal
  | .nil, _ => Option.none
  | .cons k v tl, key =>
    match jsonObjLookup tl key with
    | some r => some r
    | Option.none => if k = key then some v else Option.none

/-- Element `i` of a decoded JSON array. -/
def jsonArrGet : JsonArr → Nat → Option JsonVal
  | .nil, _ => Option.none
  | .cons v _, 0 => some v
  | .cons _ tl, i + 1 => jsonArrGet tl i

/-- Length of a decoded JSON array. -/
def jsonArrLen : JsonArr → Nat
  | .nil => 0
  | .cons _ tl => 1 + jsonArrLen tl

/-- Python `v[k]` for a string key on a decoded JSON value:
`KeyError` on a dict without the key, `TypeError` on every non-dict. -/
def subscriptStr (v : JsonVal) (key : String) : Except SubErr JsonVal :=
  match v with
  | .obj kvs =>
    match jsonObjLookup kvs key with
    | some r => .ok r
    | Option.none => .error SubErr.keyError
  | _ => .error SubErr.typeError

/-- Python `v[i]` for a non-negative integer index on a decoded JSON value:
`IndexError` past the end of a list or string, a one-character string for a
string, `KeyError` on a dict (JSON object keys are strings, so an integer
key is never present), `TypeError` otherwise. -/
def subscriptIdx (v : JsonVal) (i : Nat) : Except SubErr JsonVal :=
  match v with
  | .arr xs =>
    match jsonArrGet xs i with
    | some r => .ok r
    | Option.none => .error SubErr.indexError
  | .str s =>
    match s.data.get? i with
    | some c => .ok (JsonVal.str (String.mk [c]))
    | Option.none => .error SubErr.indexError
  | .obj _ => .error SubErr.keyError
  | _ => .error SubErr.typeError

/-- The Python exception raised during envelope extraction. -/
inductive PyExc where
  | keyError
  | indexError
  | typeError
  | attributeError
deriving Repr, DecidableEq

/-- Lift a subscript failure to the Python exception it raises. -/
def SubErr.toPyExc : SubErr → PyExc
  | SubErr.keyError => PyExc.keyError
  | SubErr.indexError => PyExc.indexError
  | SubErr.typeError => PyExc.typeError

/-- The extraction `data['candidates'][0]['content']['parts'][0]['text'].strip()`
performed at `src/main.py:96`; a non-string `text` value has no `.strip`
attribute, raising `AttributeError`. -/
def extractText (data : JsonVal) : Except PyExc String :=
  match subscriptStr data "candidates" with
  | .error e => .error e.toPyExc
  | .ok c =>
    match subscriptIdx c 0 with
    | .error e => .error e.toPyExc
    | .ok c0 =>
      match subscriptStr c0 "content" with
      | .error e => .error e.toPyExc
      | .ok ct =>
        match subscriptStr ct "parts" with
        | .error e => .error e.toPyExc
        | .ok p =>
          match subscriptIdx p 0 with
          | .error e => .error e.toPyExc
          | .ok p0 =>
            match subscriptStr p0 "text" with
            | .error e => .error e.toPyExc
            | .ok t =>
              match t with
              | .str s => .ok (pyStrip s)
              | _ => .error PyExc.attributeError

/-- Outcome of the outbound `requests.post` call: a request exception
(connection failure, timeout, ...) carrying its message, or a response
with an HTTP status code and a decoded JSON body. -/
inductive Outcome where
  | netFail (msg : String)
  | httpStatus (code : Nat) (body : JsonVal)

/-- The request URL: `requests` appends the `params` mapping, which carries
the API key, to the endpoint as a query string (`src/main.py:69-73`). -/
def requestUrl (key : String) : String :=
  "https://generativelanguage.googleapis.com/v1beta/models/" ++
    "gemini-2.0-flash:generateContent?key=" ++ key

/-- Modelled from `requests`: the message of the `HTTPError` raised by
`Response.raise_for_status` names the status code and the full request URL,
query string included. -/
def httpErrorMsg (code : Nat) (key : String) : String :=
  toString code ++ " Error for url: " ++ requestUrl key

/-- Model of `str(e)` for the exceptions the endpoint handler interpolates into its
detail string.  `TypeError`/`AttributeError` messages are summarised by a
fixed text; no theorem depends on their exact wording. -/
def Exc.message : Exc → String
  | Exc.runtimeError m => m
  | Exc.valueError m => m
  | Exc.typeError => "object is not subscriptable"
  | Exc.attributeError => "object has no attribute strip"

/-- Behaviour of `get_medication_info` (`src/main.py:48-111`) after the outbound call
resolved to `outcome`:
* a request exception or a non-2xx status (`raise_for_status`) becomes
  `RuntimeError("API request failed: ...")`;
* `KeyError`/`IndexError` during envelope extraction become
  `RuntimeError("Unexpected API response format: ...")`, while
  `TypeError`/`AttributeError` propagate unconverted;
* a parse failure of the extracted text becomes
  `ValueError("Failed to parse dict from model output: ...")`;
* otherwise the parsed value is returned as is, whatever its type. -/
def get_medication_info (key : String) (outcome : Outcome) : Except Exc PyVal :=
  match outcome with
  | Outcome.netFail msg =>
    .error (Exc.runtimeError ("API request failed: " ++ msg))
  | Outcome.httpStatus code body =>
    if 400 ≤ code ∧ code < 600 then
      .error (Exc.runtimeError ("API request failed: " ++ httpErrorMsg code key))
    else
      match extractText body with
      | .error PyExc.keyError =>
        .error (Exc.runtimeError "Unexpected API response format")
      | .error PyExc.indexError =>
        .error (Exc.runtimeError "Unexpected API response format")
      | .error PyExc.typeError => .error Exc.typeError
      | .error PyExc.attributeError => .error Exc.attributeError
      | .ok raw =>
        match literalEval raw with
        | some v => .ok v
        | Option.none =>
          .error (Exc.valueError
            ("Failed to parse dict from model output: " ++ raw))

/-- Last-wins lookup of a string key in a Python dict built from an entry
list, as dict construction lets later duplicates overwrite earlier ones. -/
def pyDictLookup (entries : List (PyVal × PyVal)) (key : String) : Option PyVal :=
  entries.foldl
    (fun acc kv =>
      match kv.1 with
      | PyVal.str s => if s = key then some kv.2 else acc
      | _ => acc)
    Option.none

/-- FastAPI's `response_model=MedicationResponse` validation of the value
returned by the endpoint function (pydantic v2 semantics: the value must be
a mapping, each declared field must be present with a string value —
non-strings are not coerced — and extra keys are ignored). -/
def validateResponse (v : PyVal) : Option MedicationResponse :=
  match v with
  | PyVal.dict es =>
    match pyDictLookup es "Medication", pyDictLookup es "specialization",
        pyDictLookup es "Influence" with
    | some (PyVal.str m), some (PyVal.str s), some (PyVal.str i) =>
      some ⟨m, s, i⟩
    | _, _, _ => Option.none
  | _ => Option.none

/-- The HTTP result seen by the caller of `POST /medication-info`. -/
inductive HttpResult where
  | success (r : MedicationResponse)
  | clientError (detail : String)
  | serverError
deriving Repr, DecidableEq

/-- The HTTP status code of a result: 200 on success, 400 for the
`HTTPException` raised by the handler, 500 for a response-model
validation failure (FastAPI's `ResponseValidationError`). -/
def HttpResult.status : HttpResult → Nat
  | HttpResult.success _ => 200
  | HttpResult.clientError _ => 400
  | HttpResult.serverError => 500

/-- The `medication_info` endpoint (`src/main.py:113-129`): every exception
escaping `get_medication_info` is caught and re-raised as
`HTTPException(status_code=400, detail=...)`; a successful return is then
validated against the response model outside the handler's `try`. -/
def medication_info (key : String) (outcome : Outcome) : HttpResult :=
  match get_medication_info key outcome with
  | .error e =>
    HttpResult.clientError
      ("Could not retrieve medication information: " ++ e.message)
  | .ok v =>
    match validateResponse v with
    | some r => HttpResult.success r
    | Option.none => HttpResult.serverError

/-- Model of `get_required_env` (`src/main.py:23-30`): `os.getenv` returns `None`
when the variable is unset, and `if not value` also rejects a present but
empty string, since the empty string is falsy. -/
def get_required_env (env : String → Option String) (var_name : String) :
    Except String String :=
  match env var_name with
  | Option.none => .error ("Missing " ++ var_name ++ " in environment")
  | some value =>
    if value = "" then .error ("Missing " ++ var_name ++ " in environment")
    else .ok value

/-- Module-level startup (`src/main.py:33-38`): load `GEMINI_API_KEY`,
re-raising the `EnvironmentError` so the process never serves traffic
without it. -/
def startupLoadKey (env : String → Option String) : Except String String :=
  get_required_env env "GEMINI_API_KEY"

/-- The response envelope the service expects, with the model text at
`candidates[0].content.parts[0].text`. -/
def mkEnvelope (text : String) : JsonVal :=
  JsonVal.obj (JsonObj.cons "candidates"
    (JsonVal.arr (JsonArr.cons
      (JsonVal.obj (JsonObj.cons "content"
        (JsonVal.obj (JsonObj.cons "parts"
          (JsonVal.arr (JsonArr.cons
            (JsonVal.obj (JsonObj.cons "text" (JsonVal.str text) JsonObj.nil))
            JsonArr.nil))
          JsonObj.nil))
        JsonObj.nil))
      JsonArr.nil))
    JsonObj.nil)

/-- Wrap text in markdown code-fence markers with a language tag. -/
def fenceWrap (lang : String) (text : String) : String :=
  "```" ++ lang ++ "\n" ++ text ++ "\n```"

/-! ## Basic character and list lemmas -/

theorem string_mk_data (s : String) : String.mk s.data = s := by
  cases s
  rfl

theorem digit_not_space {c : Char} (h : c.isDigit = true) :
    isPySpace c = false := by
  simp only [isPySpace, Bool.or_eq_false_iff, decide_eq_false_iff_not]
  refine ⟨⟨⟨⟨⟨?_, ?_⟩, ?_⟩, ?_⟩, ?_⟩, ?_⟩ <;>
    (rintro rfl; exact absurd h (by decide))

theorem digit_ne {c : Char} (h : c.isDigit = true) :
    c ≠ '"' ∧ c ≠ '\'' ∧ c ≠ '{' ∧ c ≠ '[' ∧ c ≠ '-' ∧
      c ≠ ']' ∧ c ≠ '}' ∧ c ≠ ',' := by
  refine ⟨?_, ?_, ?_, ?_, ?_, ?_, ?_, ?_⟩ <;>
    (rintro rfl; exact absurd h (by decide))

theorem skipWs_cons {c : Char} (h : isPySpace c = false) (l : List Char) :
    skipWs (c :: l) = c :: l := by
  simp [skipWs, List.dropWhile_cons, h]

theorem skipWs_nil : skipWs [] = [] := rfl

/-- A list that starts and ends with a non-whitespace character is
unchanged by stripping. -/
theorem stripChars_of_ends {a b : Char} (ha : isPySpace a = false)
    (hb : isPySpace b = false) (m : List Char) :
    stripChars (a :: (m ++ [b])) = a :: (m ++ [b]) := by
  simp [stripChars, List.dropWhile_cons, ha, hb, List.reverse_append,
    List.reverse_cons]

/-- Stripping a one-character non-whitespace list is the identity. -/
theorem stripChars_single {a : Char} (ha : isPySpace a = false) :
    stripChars [a] = [a] := by
  simp [stripChars, List.dropWhile_cons, ha]

/-! ## Digit serialization round trip -/

theorem digitChar_isDigit : ∀ d, d < 10 → (digitChar d).isDigit = true := by
  decide

theorem digitChar_toNat : ∀ d, d < 10 → (digitChar d).toNat = 48 + d := by
  decide

theorem digitChar_ne_zero : ∀ d, d < 10 → 1 ≤ d → digitChar d ≠ '0' := by
  decide

theorem digitsToNat_append_single (l : List Char) (c : Char) :
    digitsToNat (l ++ [c]) = 10 * digitsToNat l + (c.toNat - 48) := by
  simp [digitsToNat, List.foldl_append]

/-- The digits of `n` are digit characters, decode back to `n`, and start
with a nonzero digit when `1 ≤ n`. -/
theorem natSerAux_spec :
    ∀ fuel n, n < fuel →
      (∃ d ds, natSerAux fuel n = d :: ds) ∧
      (∀ c ∈ natSerAux fuel n, c.isDigit = true) ∧
      digitsToNat (natSerAux fuel n) = n ∧
      (1 ≤ n → ∀ c, (natSerAux fuel n).head? = some c → c ≠ '0') := by
  intro fuel
  induction fuel with
  | zero => intro n hn; omega
  | succ f ih =>
    intro n hn
    by_cases h10 : n < 10
    · refine ⟨⟨digitChar n, [], by simp [natSerAux, h10]⟩, ?_, ?_, ?_⟩
      · intro c hc
        simp [natSerAux, h10] at hc
        subst hc
        exact digitChar_isDigit n h10
      · simp [natSerAux, h10, digitsToNat, digitChar_toNat n h10]
      · intro h1 c hc
        simp [natSerAux, h10] at hc
        subst hc
        exact digitChar_ne_zero n h10 h1
    · have hq : n / 10 < f := by omega
      obtain ⟨⟨d, ds, hcons⟩, hdig, hval, hhead⟩ := ih (n / 10) hq
      have hmod : n % 10 < 10 := Nat.mod_lt _ (by omega)
      refine ⟨?_, ?_, ?_, ?_⟩
      · refine ⟨d, ds ++ [digitChar (n % 10)], ?_⟩
        simp [natSerAux, h10, hcons]
      · intro c hc
        simp [natSerAux, h10] at hc
        rcases hc with hc | hc
        · exact hdig c hc
        · subst hc; exact digitChar_isDigit _ hmod
      · simp only [natSerAux, h10, if_false, digitsToNat_append_single,
          hval, digitChar_toNat _ hmod]
        omega
      · intro _ c hc
        simp only [natSerAux, h10, if_false, hcons] at hc
        simp at hc
        subst hc
        have : (natSerAux f (n / 10)).head? = some d := by simp [hcons]
        exact hhead (by omega) d this

/-- Specification of `natSer`. -/
theorem natSer_spec (n : Nat) :
    (∃ d ds, natSer n = d :: ds) ∧
    (∀ c ∈ natSer n, c.isDigit = true) ∧
    digitsToNat (natSer n) = n ∧
    (1 ≤ n → ∀ c, (natSer n).head? = some c → c ≠ '0') :=
  natSerAux_spec (n + 1) n (by omega)

theorem takeWhile_append_all {p : Char → Bool} :
    ∀ (l1 l2 : List Char), (∀ c ∈ l1, p c = true) →
      (∀ c, l2.head? = some c → p c = false) →
      (l1 ++ l2).takeWhile p = l1 ∧ (l1 ++ l2).dropWhile p = l2 := by
  intro l1
  induction l1 with
  | nil =>
    intro l2 _ h2
    cases l2 with
    | nil => simp
    | cons c cs =>
      have := h2 c (by simp)
      simp [List.takeWhile_cons, List.dropWhile_cons, this]
  | cons a l ih =>
    intro l2 h1 h2
    have ha : p a = true := h1 a (by simp)
    have := ih l2 (fun c hc => h1 c (by simp [hc])) h2
    simp [List.takeWhile_cons, List.dropWhile_cons, ha, this.1, this.2]

/-- Parsing a digit run: the decimal text of `n` followed by a non-digit
suffix parses to `n` exactly. -/
theorem parseDigitsAt_natSer (n : Nat) (rest : List Char)
    (hrest : ∀ c, rest.head? = some c → c.isDigit = false) :
    parseDigitsAt (natSer n ++ rest) = some (n, rest) := by
  obtain ⟨⟨d, ds, hcons⟩, hdig, hval, hhead⟩ := natSer_spec n
  obtain ⟨htake, hdrop⟩ := takeWhile_append_all (natSer n) rest hdig hrest
  simp only [parseDigitsAt, htake, hdrop]
  have hne : (natSer n).isEmpty = false := by simp [hcons]
  simp only [hne, Bool.false_eq_true, if_false]
  have hcond : (1 < (natSer n).length && ((natSer n).head? = some '0' : Bool))
      = false := by
    by_cases h1 : 1 ≤ n
    · have : ∀ c, (natSer n).head? = some c → c ≠ '0' := hhead h1
      simp only [Bool.and_eq_false_iff]
      right
      simp only [decide_eq_false_iff_not]
      intro hc
      exact this '0' hc rfl
    · have hn0 : n = 0 := by omega
      subst hn0
      have : natSer 0 = ['0'] := by decide
      simp [this]
  simp [hcond, hval]

/-! ## String literal round trip -/

theorem escChar_length (c : Char) :
    (escChar c).length = 1 ∨ (escChar c).length = 2 := by
  unfold escChar
  split_ifs <;> simp

theorem escList_length (l : List Char) : l.length ≤ (escList l).length := by
  induction l with
  | nil => simp [escList]
  | cons c l ih =>
    have h := escChar_length c
    simp only [escList, List.length_append, List.length_cons]
    omega

theorem parsePyStr_escList :
    ∀ (l : List Char) (fuel : Nat), l.length < fuel →
      ∀ rest, parsePyStr '"' fuel (escList l ++ '"' :: rest) = some (l, rest) := by
  intro l
  induction l with
  | nil =>
    intro fuel hf rest
    obtain ⟨f, rfl⟩ : ∃ f, fuel = f + 1 := ⟨fuel - 1, by omega⟩
    simp [escList, parsePyStr]
  | cons c l ih =>
    intro fuel hf rest
    obtain ⟨f, rfl⟩ : ∃ f, fuel = f + 1 := ⟨fuel - 1, by omega⟩
    have hfl : l.length < f := by simp at hf; omega
    have hrec := ih f hfl rest
    by_cases h1 : c = '"'
    · subst h1
      simp [escList, escChar, parsePyStr, escapeMap, hrec]
    · by_cases h2 : c = '\\'
      · subst h2
        simp [escList, escChar, parsePyStr, escapeMap, hrec]
      · by_cases h3 : c = '\n'
        · subst h3
          simp [escList, escChar, parsePyStr, escapeMap, hrec]
        · by_cases h4 : c = '\t'
          · subst h4
            simp [escList, escChar, parsePyStr, escapeMap, hrec]
          · by_cases h5 : c = '\r'
            · subst h5
              simp [escList, escChar, parsePyStr, escapeMap, hrec]
            · simp [escList, escChar, h1, h2, h3, h4, h5, parsePyStr, hrec]

/-- A double-quoted string literal parses back to its contents, for any
parser fuel (the string sub-parser budgets its own fuel from the input). -/
theorem parseVal_str (s : String) (fuel : Nat) (hf : 1 ≤ fuel)
    (rest : List Char) :
    parseVal fuel (serV (JsonVal.str s) ++ rest) =
      some (PyVal.str s, rest) := by
  obtain ⟨f, rfl⟩ : ∃ f, fuel = f + 1 := ⟨fuel - 1, by omega⟩
  have hshape : serV (JsonVal.str s) ++ rest =
      '"' :: (escList s.data ++ '"' :: rest) := by
    simp [serV]
  rw [hshape]
  have hq : isPySpace '"' = false := by decide
  have hlen : s.data.length < (escList s.data ++ '"' :: rest).length + 1 := by
    have := escList_length s.data
    simp only [List.length_append, List.length_cons]
    omega
  simp only [parseVal, skipWs_cons hq]
  simp only [show (('"' : Char) = '"') = True by simp, if_true]
  refine Option.map_eq_some'.mpr ⟨(s.data, rest), ?_, by cases s; rfl⟩
  simpa using parsePyStr_escList s.data _ hlen rest

/-- An integer literal parses back to its value when the following text
does not start with a digit. -/
theorem parseVal_int (n : Int) (fuel : Nat) (hf : 1 ≤ fuel)
    (rest : List Char)
    (hrest : ∀ c, rest.head? = some c → c.isDigit = false) :
    parseVal fuel (serV (JsonVal.int n) ++ rest) =
      some (PyVal.int n, rest) := by
  obtain ⟨f, rfl⟩ : ∃ f, fuel = f + 1 := ⟨fuel - 1, by omega⟩
  by_cases hneg : n < 0
  · have hshape : serV (JsonVal.int n) ++ rest =
        '-' :: (natSer n.natAbs ++ rest) := by
      simp [serV, intSer, hneg]
    rw [hshape]
    have hm : isPySpace '-' = false := by decide
    obtain ⟨⟨d, ds, hcons⟩, hdig, -, -⟩ := natSer_spec n.natAbs
    have hd : d.isDigit = true := hdig d (by simp [hcons])
    have hds : isPySpace d = false := digit_not_space hd
    have hskip : skipWs (natSer n.natAbs ++ rest) = natSer n.natAbs ++ rest := by
      rw [hcons]
      exact skipWs_cons hds _
    simp only [parseVal, skipWs_cons hm]
    rw [if_neg (by decide : ¬('-' : Char) = '"'),
      if_neg (by decide : ¬('-' : Char) = '\''),
      if_neg (by decide : ¬('-' : Char) = '{'),
      if_neg (by decide : ¬('-' : Char) = '['),
      if_pos trivial, hskip, parseDigitsAt_natSer n.natAbs rest hrest]
    simp only [Option.map_some', Option.some.injEq, Prod.mk.injEq,
      PyVal.int.injEq, and_true]
    omega
  · have hshape : serV (JsonVal.int n) ++ rest = natSer n.toNat ++ rest := by
      simp [serV, intSer, hneg]
    rw [hshape]
    obtain ⟨⟨d, ds, hcons⟩, hdig, -, -⟩ := natSer_spec n.toNat
    have hd : d.isDigit = true := hdig d (by simp [hcons])
    have hds : isPySpace d = false := digit_not_space hd
    obtain ⟨hne1, hne2, hne3, hne4, hne5, -, -, -⟩ := digit_ne hd
    have hshape2 : natSer n.toNat ++ rest = d :: (ds ++ rest) := by
      simp [hcons]
    rw [hshape2]
    simp only [parseVal, skipWs_cons hds]
    rw [if_neg hne1, if_neg hne2, if_neg hne3, if_neg hne4, if_neg hne5,
      if_pos hd, ← hshape2, parseDigitsAt_natSer n.toNat rest hrest]
    simp only [Option.map_some', Option.some.injEq, Prod.mk.injEq,
      PyVal.int.injEq, and_true]
    omega

/-! ## Main round trip: canonical JSON text parses as a Python literal -/

theorem fuelNeedV_pos (j : JsonVal) : 1 ≤ fuelNeedV j := by
  cases j <;> simp [fuelNeedV] <;> omega

/-- Every serialization starts with a non-whitespace character that is not
a closing delimiter or separator. -/
theorem serV_shape (j : JsonVal) :
    ∃ c cs, serV j = c :: cs ∧ isPySpace c = false ∧
      c ≠ ']' ∧ c ≠ '}' ∧ c ≠ ',' := by
  cases j with
  | str s =>
    exact ⟨'"', escList s.data ++ ['"'], by simp [serV], by decide, by decide,
      by decide, by decide⟩
  | int n =>
    by_cases hneg : n < 0
    · exact ⟨'-', natSer n.natAbs, by simp [serV, intSer, hneg], by decide,
        by decide, by decide, by decide⟩
    · obtain ⟨⟨d, ds, hcons⟩, hdig, -, -⟩ := natSer_spec n.toNat
      have hd : d.isDigit = true := hdig d (by simp [hcons])
      obtain ⟨-, -, -, -, -, hd1, hd2, hd3⟩ := digit_ne hd
      exact ⟨d, ds, by simp [serV, intSer, hneg, hcons], digit_not_space hd,
        hd1, hd2, hd3⟩
  | bool b =>
    cases b
    · exact ⟨'f', ['a', 'l', 's', 'e'], by simp [serV], by decide, by decide,
        by decide, by decide⟩
    · exact ⟨'t', ['r', 'u', 'e'], by simp [serV], by decide, by decide,
        by decide, by decide⟩
  | null =>
    exact ⟨'n', ['u', 'l', 'l'], by simp [serV], by decide, by decide,
      by decide, by decide⟩
  | arr xs =>
    cases xs with
    | nil =>
      exact ⟨'[', [']'], by simp [serV], by decide, by decide, by decide,
        by decide⟩
    | cons v tl =>
      exact ⟨'[', serV v ++ serArrTail tl ++ [']'], by simp [serV], by decide,
        by decide, by decide, by decide⟩
  | obj kvs =>
    cases kvs with
    | nil =>
      exact ⟨'{', ['}'], by simp [serV], by decide, by decide, by decide,
        by decide⟩
    | cons k v tl =>
      exact ⟨'{', serEntry k v ++ serObjTail tl ++ ['}'], by simp [serV],
        by decide, by decide, by decide, by decide⟩

/-- Parsing the canonical serialization: the three mutual statements
(values, array items, object items), packaged for strong induction over
the combined size of the remaining JSON value(s). -/
theorem parse_ser_strong :
    ∀ N : Nat,
      (∀ j : JsonVal, 2 * sizeOf j ≤ N → ∀ v : PyVal, jsonToPy j = some v →
        ∀ fuel : Nat, fuelNeedV j ≤ fuel →
        ∀ rest : List Char, (∀ c, rest.head? = some c → c.isDigit = false) →
        parseVal fuel (serV j ++ rest) = some (v, rest)) ∧
      (∀ (v0 : JsonVal) (tl : JsonArr),
        2 * sizeOf v0 + 2 * sizeOf tl + 1 ≤ N →
        ∀ (pv0 : PyVal) (ptl : List PyVal), jsonToPy v0 = some pv0 →
        jsonToPyArr tl = some ptl →
        ∀ fuel : Nat, 1 + fuelNeedV v0 + fuelNeedA tl ≤ fuel →
        ∀ rest : List Char, (∀ c, rest.head? = some c → c.isDigit = false) →
        parseListItems fuel (serV v0 ++ (serArrTail tl ++ ']' :: rest)) =
          some (pv0 :: ptl, rest)) ∧
      (∀ (k0 : String) (v0 : JsonVal) (tl : JsonObj),
        2 * sizeOf v0 + 2 * sizeOf tl + 1 ≤ N →
        ∀ (pv0 : PyVal) (ptl : List (PyVal × PyVal)),
        jsonToPy v0 = some pv0 → jsonToPyObj tl = some ptl →
        ∀ fuel : Nat, 1 + fuelNeedV v0 + fuelNeedO tl ≤ fuel →
        ∀ rest : List Char, (∀ c, rest.head? = some c → c.isDigit = false) →
        parseDictItems fuel
            (serEntry k0 v0 ++ (serObjTail tl ++ '}' :: rest)) =
          some ((PyVal.str k0, pv0) :: ptl, rest)) := by
  intro N
  induction N using Nat.strong_induction_on with
  | _ N ih =>
  refine ⟨?_, ?_, ?_⟩
  · intro j hN v hj fuel hf rest hrest
    cases j with
    | str s =>
      simp only [jsonToPy, Option.some.injEq] at hj
      subst hj
      exact parseVal_str s fuel (by simpa [fuelNeedV] using hf) rest
    | int n =>
      simp only [jsonToPy, Option.some.injEq] at hj
      subst hj
      exact parseVal_int n fuel (by simpa [fuelNeedV] using hf) rest hrest
    | bool b => simp [jsonToPy] at hj
    | null => simp [jsonToPy] at hj
    | arr xs =>
      cases xs with
      | nil =>
        simp only [jsonToPy, jsonToPyArr, Option.map_some', Option.some.injEq]
          at hj
        subst hj
        simp only [fuelNeedV, fuelNeedA] at hf
        obtain ⟨f, rfl⟩ : ∃ f, fuel = f + 1 := ⟨fuel - 1, by omega⟩
        obtain ⟨g, rfl⟩ : ∃ g, f = g + 1 := ⟨f - 1, by omega⟩
        have hshape : serV (JsonVal.arr JsonArr.nil) ++ rest =
            '[' :: (']' :: rest) := by simp [serV]
        rw [hshape]
        simp only [parseVal, skipWs_cons (by decide : isPySpace '[' = false)]
        rw [if_neg (by decide : ¬('[' : Char) = '"'),
          if_neg (by decide : ¬('[' : Char) = '\''),
          if_neg (by decide : ¬('[' : Char) = '{'), if_pos trivial,
          show skipWs (']' :: rest) = ']' :: rest from
            skipWs_cons (by decide) _]
        simp [parseListBody]
      | cons v0 tl =>
        cases h0 : jsonToPy v0 <;> cases htl : jsonToPyArr tl <;>
          simp [jsonToPy, jsonToPyArr, h0, htl] at hj
        case some.some pv0 ptl =>
        subst hj
        simp only [fuelNeedV, fuelNeedA] at hf
        have hp0 := fuelNeedV_pos v0
        have hs : sizeOf (JsonVal.arr (JsonArr.cons v0 tl)) =
            1 + (1 + sizeOf v0 + sizeOf tl) := by simp
        have hszB : 2 * sizeOf v0 + 2 * sizeOf tl + 1 < N := by
          rw [hs] at hN
          omega
        obtain ⟨f, rfl⟩ : ∃ f, fuel = f + 1 := ⟨fuel - 1, by omega⟩
        obtain ⟨g, rfl⟩ : ∃ g, f = g + 1 := ⟨f - 1, by omega⟩
        have hshape : serV (JsonVal.arr (JsonArr.cons v0 tl)) ++ rest =
            '[' :: (serV v0 ++ (serArrTail tl ++ ']' :: rest)) := by
          simp [serV]
        rw [hshape]
        simp only [parseVal, skipWs_cons (by decide : isPySpace '[' = false)]
        rw [if_neg (by decide : ¬('[' : Char) = '"'),
          if_neg (by decide : ¬('[' : Char) = '\''),
          if_neg (by decide : ¬('[' : Char) = '{'), if_pos trivial]
        obtain ⟨c0, cs0, hs0, hns0, hner, -, -⟩ := serV_shape v0
        have hskip : skipWs (serV v0 ++ (serArrTail tl ++ ']' :: rest)) =
            serV v0 ++ (serArrTail tl ++ ']' :: rest) := by
          rw [hs0, List.cons_append]
          exact skipWs_cons hns0 _
        rw [hskip, hs0, List.cons_append]
        simp only [parseListBody]
        rw [if_neg hner, ← List.cons_append, ← hs0,
          (ih _ hszB).2.1 v0 tl le_rfl pv0 ptl h0 htl g (by omega) rest hrest]
        rfl
    | obj kvs =>
      cases kvs with
      | nil =>
        simp only [jsonToPy, jsonToPyObj, Option.map_some', Option.some.injEq]
          at hj
        subst hj
        simp only [fuelNeedV, fuelNeedO] at hf
        obtain ⟨f, rfl⟩ : ∃ f, fuel = f + 1 := ⟨fuel - 1, by omega⟩
        obtain ⟨g, rfl⟩ : ∃ g, f = g + 1 := ⟨f - 1, by omega⟩
        have hshape : serV (JsonVal.obj JsonObj.nil) ++ rest =
            '{' :: ('}' :: rest) := by simp [serV]
        rw [hshape]
        simp only [parseVal, skipWs_cons (by decide : isPySpace '{' = false)]
        rw [if_neg (by decide : ¬('{' : Char) = '"'),
          if_neg (by decide : ¬('{' : Char) = '\''), if_pos trivial,
          show skipWs ('}' :: rest) = '}' :: rest from
            skipWs_cons (by decide) _]
        simp [parseDictBody]
      | cons k0 v0 tl =>
        cases h0 : jsonToPy v0 <;> cases htl : jsonToPyObj tl <;>
          simp [jsonToPy, jsonToPyObj, h0, htl] at hj
        case some.some pv0 ptl =>
        subst hj
        simp only [fuelNeedV, fuelNeedO] at hf
        have hp0 := fuelNeedV_pos v0
        have hs : sizeOf (JsonVal.obj (JsonObj.cons k0 v0 tl)) =
            1 + (1 + sizeOf k0 + sizeOf v0 + sizeOf tl) := by simp
        have hszC : 2 * sizeOf v0 + 2 * sizeOf tl + 1 < N := by
          rw [hs] at hN
          have : 0 ≤ sizeOf k0 := by omega
          omega
        obtain ⟨f, rfl⟩ : ∃ f, fuel = f + 1 := ⟨fuel - 1, by omega⟩
        obtain ⟨g, rfl⟩ : ∃ g, f = g + 1 := ⟨f - 1, by omega⟩
        have hshape : serV (JsonVal.obj (JsonObj.cons k0 v0 tl)) ++ rest =
            '{' :: (serEntry k0 v0 ++ (serObjTail tl ++ '}' :: rest)) := by
          simp [serV]
        rw [hshape]
        simp only [parseVal, skipWs_cons (by decide : isPySpace '{' = false)]
        rw [if_neg (by decide : ¬('{' : Char) = '"'),
          if_neg (by decide : ¬('{' : Char) = '\''), if_pos trivial]
        have hent : serEntry k0 v0 ++ (serObjTail tl ++ '}' :: rest) =
            '"' :: ((escList k0.data ++ ['"', ':'] ++ serV v0) ++
              (serObjTail tl ++ '}' :: rest)) := by
          simp [serEntry]
        have hskip : skipWs
            (serEntry k0 v0 ++ (serObjTail tl ++ '}' :: rest)) =
            serEntry k0 v0 ++ (serObjTail tl ++ '}' :: rest) := by
          rw [hent]
          exact skipWs_cons (by decide) _
        rw [hskip, hent]
        simp only [parseDictBody]
        rw [if_neg (by decide : ¬('"' : Char) = '}'), ← hent,
          (ih _ hszC).2.2 k0 v0 tl le_rfl pv0 ptl h0 htl g (by omega)
            rest hrest]
        rfl
  · intro v0 tl hN pv0 ptl h0 htl fuel hf rest hrest
    have hp0 := fuelNeedV_pos v0
    obtain ⟨h, rfl⟩ : ∃ h, fuel = h + 1 := ⟨fuel - 1, by omega⟩
    have hX : ∀ c, (serArrTail tl ++ ']' :: rest).head? = some c →
        c.isDigit = false := by
      cases tl with
      | nil =>
        intro c hc
        simp [serArrTail] at hc
        subst hc
        decide
      | cons v1 tl' =>
        intro c hc
        simp [serArrTail] at hc
        subst hc
        decide
    simp only [parseListItems]
    rw [(ih (2 * sizeOf v0) (by omega)).1 v0 le_rfl pv0 h0 h (by omega) _ hX]
    simp only []
    cases tl with
    | nil =>
      simp only [jsonToPyArr, Option.some.injEq] at htl
      subst htl
      simp [serArrTail, skipWs_cons (by decide : isPySpace ']' = false)]
    | cons v1 tl' =>
      cases h1 : jsonToPy v1 <;> cases h2 : jsonToPyArr tl' <;>
        simp [jsonToPyArr, h1, h2] at htl
      case some.some pv1 ptl' =>
      subst htl
      have hA : fuelNeedA (JsonArr.cons v1 tl') =
          1 + fuelNeedV v1 + fuelNeedA tl' := by simp [fuelNeedA]
      have hp1 := fuelNeedV_pos v1
      have hsz : sizeOf (JsonArr.cons v1 tl') =
          1 + sizeOf v1 + sizeOf tl' := by simp
      have hrec : 2 * sizeOf v1 + 2 * sizeOf tl' + 1 < N := by
        rw [hsz] at hN
        omega
      have htail : serArrTail (JsonArr.cons v1 tl') ++ ']' :: rest =
          ',' :: (serV v1 ++ (serArrTail tl' ++ ']' :: rest)) := by
        simp [serArrTail]
      rw [htail, skipWs_cons (by decide : isPySpace ',' = false)]
      simp only []
      rw [if_neg (by decide : ¬(',' : Char) = ']'), if_pos trivial]
      obtain ⟨c1, cs1, hs1, hns1, hner, -, -⟩ := serV_shape v1
      have hskip1 : skipWs (serV v1 ++ (serArrTail tl' ++ ']' :: rest)) =
          serV v1 ++ (serArrTail tl' ++ ']' :: rest) := by
        rw [hs1, List.cons_append]
        exact skipWs_cons hns1 _
      rw [hskip1, hs1, List.cons_append]
      simp only []
      rw [if_neg hner, ← List.cons_append, ← hs1,
        (ih _ hrec).2.1 v1 tl' le_rfl pv1 ptl' h1 h2 h (by omega) rest hrest]
      rfl
  · intro k0 v0 tl hN pv0 ptl h0 htl fuel hf rest hrest
    have hp0 := fuelNeedV_pos v0
    obtain ⟨h, rfl⟩ : ∃ h, fuel = h + 1 := ⟨fuel - 1, by omega⟩
    have hY : ∀ c, (serObjTail tl ++ '}' :: rest).head? = some c →
        c.isDigit = false := by
      cases tl with
      | nil =>
        intro c hc
        simp [serObjTail] at hc
        subst hc
        decide
      | cons k1 v1 tl' =>
        intro c hc
        simp [serObjTail] at hc
        subst hc
        decide
    have hkey : serEntry k0 v0 ++ (serObjTail tl ++ '}' :: rest) =
        serV (JsonVal.str k0) ++
          (':' :: (serV v0 ++ (serObjTail tl ++ '}' :: rest))) := by
      simp [serEntry, serV]
    rw [hkey]
    simp only [parseDictItems]
    rw [parseVal_str k0 h (by omega) _]
    simp only []
    have htok : expectTok ':'
        (':' :: (serV v0 ++ (serObjTail tl ++ '}' :: rest))) =
        some (serV v0 ++ (serObjTail tl ++ '}' :: rest)) := by
      simp [expectTok, skipWs_cons (by decide : isPySpace ':' = false)]
    rw [htok]
    simp only []
    rw [(ih (2 * sizeOf v0) (by omega)).1 v0 le_rfl pv0 h0 h (by omega) _ hY]
    simp only []
    cases tl with
    | nil =>
      simp only [jsonToPyObj, Option.some.injEq] at htl
      subst htl
      simp [serObjTail, skipWs_cons (by decide : isPySpace '}' = false)]
    | cons k1 v1 tl' =>
      cases h1 : jsonToPy v1 <;> cases h2 : jsonToPyObj tl' <;>
        simp [jsonToPyObj, h1, h2] at htl
      case some.some pv1 ptl' =>
      subst htl
      have hO : fuelNeedO (JsonObj.cons k1 v1 tl') =
          1 + fuelNeedV v1 + fuelNeedO tl' := by simp [fuelNeedO]
      have hp1 := fuelNeedV_pos v1
      have hsz : sizeOf (JsonObj.cons k1 v1 tl') =
          1 + sizeOf k1 + sizeOf v1 + sizeOf tl' := by simp
      have hrec : 2 * sizeOf v1 + 2 * sizeOf tl' + 1 < N := by
        rw [hsz] at hN
        have : 0 ≤ sizeOf k1 := by omega
        omega
      have htail : serObjTail (JsonObj.cons k1 v1 tl') ++ '}' :: rest =
          ',' :: (serEntry k1 v1 ++ (serObjTail tl' ++ '}' :: rest)) := by
        simp [serObjTail]
      rw [htail, skipWs_cons (by decide : isPySpace ',' = false)]
      simp only []
      rw [if_neg (by decide : ¬(',' : Char) = '}'), if_pos trivial]
      have hent1 : serEntry k1 v1 ++ (serObjTail tl' ++ '}' :: rest) =
          '"' :: ((escList k1.data ++ ['"', ':'] ++ serV v1) ++
            (serObjTail tl' ++ '}' :: rest)) := by
        simp [serEntry]
      have hskip1 : skipWs
          (serEntry k1 v1 ++ (serObjTail tl' ++ '}' :: rest)) =
          serEntry k1 v1 ++ (serObjTail tl' ++ '}' :: rest) := by
        rw [hent1]
        exact skipWs_cons (by decide) _
      rw [hskip1, hent1]
      simp only []
      rw [if_neg (by decide : ¬('"' : Char) = '}'), ← hent1,
        (ih _ hrec).2.2 k1 v1 tl' le_rfl pv1 ptl' h1 h2 h (by omega)
          rest hrest]
      rfl

/-- The canonical JSON text of `j`, when `j` has a Python-literal
counterpart `v`, parses to exactly `v`, leaving the suffix intact. -/
theorem parseVal_serV (j : JsonVal) (v : PyVal) (hj : jsonToPy j = some v)
    (fuel : Nat) (hf : fuelNeedV j ≤ fuel) (rest : List Char)
    (hrest : ∀ c, rest.head? = some c → c.isDigit = false) :
    parseVal fuel (serV j ++ rest) = some (v, rest) :=
  (parse_ser_strong (2 * sizeOf j)).1 j le_rfl v hj fuel hf rest hrest

/-- The fuel requirement is covered by twice the serialization length. -/
theorem fuelNeed_le_strong :
    ∀ N : Nat,
      (∀ j : JsonVal, sizeOf j ≤ N → fuelNeedV j ≤ 2 * (serV j).length) ∧
      (∀ xs : JsonArr, sizeOf xs ≤ N →
        fuelNeedA xs ≤ 2 * (serArrTail xs).length) ∧
      (∀ kvs : JsonObj, sizeOf kvs ≤ N →
        fuelNeedO kvs ≤ 2 * (serObjTail kvs).length) := by
  intro N
  induction N using Nat.strong_induction_on with
  | _ N ih =>
  refine ⟨?_, ?_, ?_⟩
  · intro j hN
    cases j with
    | str s =>
      simp [fuelNeedV, serV]
      omega
    | int n =>
      by_cases hneg : n < 0
      · obtain ⟨⟨d, ds, hcons⟩, -, -, -⟩ := natSer_spec n.natAbs
        simp [fuelNeedV, serV, intSer, hneg, hcons]
        omega
      · obtain ⟨⟨d, ds, hcons⟩, -, -, -⟩ := natSer_spec n.toNat
        simp [fuelNeedV, serV, intSer, hneg, hcons]
        omega
    | bool b => cases b <;> simp [fuelNeedV, serV]
    | null => simp [fuelNeedV, serV]
    | arr xs =>
      cases xs with
      | nil => simp [fuelNeedV, fuelNeedA, serV]
      | cons v0 tl =>
        have hs : sizeOf (JsonVal.arr (JsonArr.cons v0 tl)) =
            1 + (1 + sizeOf v0 + sizeOf tl) := by simp
        have hv := (ih (sizeOf v0) (by omega)).1 v0 le_rfl
        have ha := (ih (sizeOf tl) (by omega)).2.1 tl le_rfl
        have h1 : 1 ≤ (serV v0).length := by
          obtain ⟨c, cs, hc, -, -, -, -⟩ := serV_shape v0
          simp [hc]
        simp only [fuelNeedV, fuelNeedA, serV, List.length_cons,
          List.length_append, List.length_nil]
        omega
    | obj kvs =>
      cases kvs with
      | nil => simp [fuelNeedV, fuelNeedO, serV]
      | cons k0 v0 tl =>
        have hs : sizeOf (JsonVal.obj (JsonObj.cons k0 v0 tl)) =
            1 + (1 + sizeOf k0 + sizeOf v0 + sizeOf tl) := by simp
        have hv := (ih (sizeOf v0) (by omega)).1 v0 le_rfl
        have ho := (ih (sizeOf tl) (by omega)).2.2 tl le_rfl
        simp only [fuelNeedV, fuelNeedO, serV, serEntry, List.length_cons,
          List.length_append, List.length_nil]
        omega
  · intro xs hN
    cases xs with
    | nil => simp [fuelNeedA, serArrTail]
    | cons v0 tl =>
      have hs : sizeOf (JsonArr.cons v0 tl) =
          1 + sizeOf v0 + sizeOf tl := by simp
      have hv := (ih (sizeOf v0) (by omega)).1 v0 le_rfl
      have ha := (ih (sizeOf tl) (by omega)).2.1 tl le_rfl
      simp only [fuelNeedA, serArrTail, List.length_cons, List.length_append]
      omega
  · intro kvs hN
    cases kvs with
    | nil => simp [fuelNeedO, serObjTail]
    | cons k0 v0 tl =>
      have hs : sizeOf (JsonObj.cons k0 v0 tl) =
          1 + sizeOf k0 + sizeOf v0 + sizeOf tl := by simp
      have hv := (ih (sizeOf v0) (by omega)).1 v0 le_rfl
      have ho := (ih (sizeOf tl) (by omega)).2.2 tl le_rfl
      simp only [fuelNeedO, serObjTail, serEntry, List.length_cons,
        List.length_append]
      omega

/-- Parsing with `ast.literal_eval` recovers the Python counterpart of a JSON value
from its canonical serialization. -/
theorem literalEval_serializeJson (j : JsonVal) (v : PyVal)
    (hj : jsonToPy j = some v) : literalEval (serializeJson j) = some v := by
  have hfuel : fuelNeedV j ≤ 2 * (serializeJson j).data.length + 2 := by
    have := (fuelNeed_le_strong (sizeOf j)).1 j le_rfl
    simp only [serializeJson] at *
    omega
  have h := parseVal_serV j v hj (2 * (serializeJson j).data.length + 2)
    hfuel [] (by simp)
  have h' : parseVal (2 * (serializeJson j).data.length + 2)
      (serializeJson j).data = some (v, []) := by
    simpa [serializeJson] using h
  have h2 : parseVal (2 * (serializeJson j).length + 2)
      (serializeJson j).data = some (v, []) := h'
  simp [literalEval, h', h2, skipWs]

/-- The canonical text of a JSON object starts with `{` and ends with `}`. -/
theorem serV_obj_ends (kvs : JsonObj) :
    ∃ m, serV (JsonVal.obj kvs) = '{' :: (m ++ ['}']) := by
  cases kvs with
  | nil => exact ⟨[], by simp [serV]⟩
  | cons k v tl =>
    exact ⟨serEntry k v ++ serObjTail tl, by simp [serV]⟩

/-- Stripping is the identity on the canonical text of a JSON object. -/
theorem pyStrip_serializeJson_obj (kvs : JsonObj) :
    pyStrip (serializeJson (JsonVal.obj kvs)) =
      serializeJson (JsonVal.obj kvs) := by
  obtain ⟨m, hm⟩ := serV_obj_ends kvs
  simp only [pyStrip, serializeJson, hm]
  rw [stripChars_of_ends (by decide) (by decide)]

/-! ## The envelope, stripping, and fence behaviour -/

theorem extractText_mkEnvelope (t : String) :
    extractText (mkEnvelope t) = .ok (pyStrip t) := rfl

theorem fenceWrap_data (lang t : String) :
    (fenceWrap lang t).data =
      Char.ofNat 96 :: ((Char.ofNat 96 :: Char.ofNat 96 :: lang.data ++
        '\n' :: t.data ++ ['\n', Char.ofNat 96, Char.ofNat 96])
        ++ [Char.ofNat 96]) := by
  have h1 : ("```" : String).data =
    [Char.ofNat 96, Char.ofNat 96, Char.ofNat 96] := rfl
  have h2 : ("\n" : String).data = ['\n'] := rfl
  have h3 : ("\n```" : String).data =
    ['\n', Char.ofNat 96, Char.ofNat 96, Char.ofNat 96] := rfl
  simp [fenceWrap, String.data_append, h1, h2, h3]

theorem pyStrip_fenceWrap (lang t : String) :
    pyStrip (fenceWrap lang t) = fenceWrap lang t := by
  have hd := fenceWrap_data lang t
  simp only [pyStrip, hd]
  rw [stripChars_of_ends (by decide) (by decide), ← hd, string_mk_data]

/-- Text starting with a backtick is not a Python literal. -/
theorem literalEval_backtick (s : String)
    (h : s.data.head? = some (Char.ofNat 96)) :
    literalEval s = Option.none := by
  cases hd : s.data with
  | nil => rw [hd] at h; simp at h
  | cons c t =>
    rw [hd] at h
    simp at h
    subst h
    obtain ⟨k, hk⟩ : ∃ k, 2 * s.data.length + 2 = k + 1 :=
      ⟨2 * s.data.length + 1, rfl⟩
    have hp : parseVal (2 * s.data.length + 2) s.data = Option.none := by
      rw [hk, hd]
      simp [parseVal,
        skipWs_cons (by decide : isPySpace (Char.ofNat 96) = false)]
    have hp2 : parseVal (2 * s.length + 2) s.data = Option.none := hp
    simp [literalEval, hp, hp2]

/-! ## Dict lookup correspondence -/

theorem pyLookup_foldl_acc (key : String) :
    ∀ (es : List (PyVal × PyVal)) (a : Option PyVal),
      es.foldl (fun acc kv =>
          match kv.1 with
          | PyVal.str s => if s = key then some kv.2 else acc
          | _ => acc) a
        = (es.foldl (fun acc kv =>
            match kv.1 with
            | PyVal.str s => if s = key then some kv.2 else acc
            | _ => acc) Option.none).or a := by
  intro es
  induction es with
  | nil =>
    intro a
    simp [Option.none_or]
  | cons kv es ih =>
    intro a
    obtain ⟨k1, v1⟩ := kv
    simp only [List.foldl_cons]
    rw [ih]
    conv_rhs => rw [ih]
    cases hL : es.foldl (fun acc kv =>
        match kv.1 with
        | PyVal.str s => if s = key then some kv.2 else acc
        | _ => acc) Option.none with
    | some r => simp [Option.or]
    | none =>
      simp only [Option.none_or]
      cases k1 with
      | str s => by_cases hk : s = key <;> simp [hk, Option.or, Option.none_or]
      | int m => simp [Option.or, Option.none_or]
      | bool b => simp [Option.or, Option.none_or]
      | none => simp [Option.or, Option.none_or]
      | list xs => simp [Option.or, Option.none_or]
      | dict es2 => simp [Option.or, Option.none_or]

/-- Prepending an entry to a Python dict: the lookup prefers the tail
(later duplicates win), falling back to the new head entry. -/
theorem pyDictLookup_cons (k1 v1 : PyVal) (es : List (PyVal × PyVal))
    (key : String) :
    pyDictLookup ((k1, v1) :: es) key =
      (pyDictLookup es key).or
        (match k1 with
         | PyVal.str s => if s = key then some v1 else Option.none
         | _ => Option.none) := by
  unfold pyDictLookup
  simp only [List.foldl_cons]
  rw [pyLookup_foldl_acc key es]

/-- Lookup in a Python dict built by `jsonToPyObj` agrees with JSON object
lookup (duplicate keys resolve to the last occurrence in both). -/
theorem pyDictLookup_jsonToPyObj :
    ∀ (n : Nat) (kvs : JsonObj), sizeOf kvs ≤ n →
      ∀ es, jsonToPyObj kvs = some es →
      ∀ key, pyDictLookup es key = (jsonObjLookup kvs key).bind jsonToPy ∧
        (∀ r, jsonObjLookup kvs key = some r → ∃ pr, jsonToPy r = some pr) := by
  intro n
  induction n using Nat.strong_induction_on with
  | _ n ih =>
  intro kvs hsz es hes key
  cases kvs with
  | nil =>
    simp only [jsonToPyObj, Option.some.injEq] at hes
    subst hes
    simp [pyDictLookup, jsonObjLookup]
  | cons k v tl =>
    cases h0 : jsonToPy v <;> cases htl : jsonToPyObj tl <;>
      simp [jsonToPyObj, h0, htl] at hes
    case some.some pv ptl =>
    subst hes
    have hs : sizeOf (JsonObj.cons k v tl) =
        1 + sizeOf k + sizeOf v + sizeOf tl := by simp
    obtain ⟨ihl, ihr⟩ := ih (sizeOf tl) (by omega) tl le_rfl ptl htl key
    constructor
    · have hC : pyDictLookup ((PyVal.str k, pv) :: ptl) key =
          (pyDictLookup ptl key).or
            (if k = key then some pv else Option.none) := by
        rw [pyDictLookup_cons]
      rw [hC, ihl]
      cases hlk : jsonObjLookup tl key with
      | some r =>
        obtain ⟨pr, hpr⟩ := ihr r hlk
        simp [jsonObjLookup, hlk, hpr, Option.or]
      | none =>
        simp only [jsonObjLookup, hlk, Option.bind, Option.none_or]
        by_cases hk : k = key <;> simp [hk, h0]
    · intro r hr
      simp only [jsonObjLookup] at hr
      cases hlk : jsonObjLookup tl key with
      | some r' =>
        rw [hlk] at hr
        simp at hr
        subst hr
        exact ihr _ hlk
      | none =>
        rw [hlk] at hr
        by_cases hk : k = key
        · simp [hk] at hr
          subst hr
          exact ⟨pv, h0⟩
        · simp [hk] at hr

/-! ## Pipeline-level lemmas -/

theorem get_medication_info_parse_ok (key t : String) (v : PyVal)
    (h : literalEval (pyStrip t) = some v) :
    get_medication_info key (Outcome.httpStatus 200 (mkEnvelope t)) =
      .ok v := by
  simp [get_medication_info, extractText_mkEnvelope, h]

theorem get_medication_info_parse_err (key t : String)
    (h : literalEval (pyStrip t) = Option.none) :
    get_medication_info key (Outcome.httpStatus 200 (mkEnvelope t)) =
      .error (Exc.valueError
        ("Failed to parse dict from model output: " ++ pyStrip t)) := by
  simp [get_medication_info, extractText_mkEnvelope, h]

theorem medication_info_of_ok (key : String) (outcome : Outcome) (v : PyVal)
    (r : MedicationResponse) (h : get_medication_info key outcome = .ok v)
    (hv : validateResponse v = some r) :
    medication_info key outcome = HttpResult.success r := by
  simp [medication_info, h, hv]

theorem medication_info_of_invalid (key : String) (outcome : Outcome)
    (v : PyVal) (h : get_medication_info key outcome = .ok v)
    (hv : validateResponse v = Option.none) :
    medication_info key outcome = HttpResult.serverError := by
  simp [medication_info, h, hv]

theorem medication_info_of_error (key : String) (outcome : Outcome) (e : Exc)
    (h : get_medication_info key outcome = .error e) :
    medication_info key outcome =
      HttpResult.clientError
        ("Could not retrieve medication information: " ++ e.message) := by
  simp [medication_info, h]

theorem validateResponse_fields (es : List (PyVal × PyVal)) (m s i : String)
    (hm : pyDictLookup es "Medication" = some (PyVal.str m))
    (hs : pyDictLookup es "specialization" = some (PyVal.str s))
    (hi : pyDictLookup es "Influence" = some (PyVal.str i)) :
    validateResponse (PyVal.dict es) = some ⟨m, s, i⟩ := by
  simp [validateResponse, hm, hs, hi]

/-- The response-model validation rejects a dict in which some required
field is not present with a string value. -/
theorem validateResponse_none (es : List (PyVal × PyVal))
    (h : (∀ m : String,
          pyDictLookup es "Medication" ≠ some (PyVal.str m)) ∨
        (∀ m : String,
          pyDictLookup es "specialization" ≠ some (PyVal.str m)) ∨
        (∀ m : String,
          pyDictLookup es "Influence" ≠ some (PyVal.str m))) :
    validateResponse (PyVal.dict es) = Option.none := by
  simp only [validateResponse]
  split
  · rename_i x1 x2 x3 m s i h1 h2 h3
    rcases h with h | h | h
    · exact absurd h1 (h m)
    · exact absurd h2 (h s)
    · exact absurd h3 (h i)
  · rfl

/-! ## Claims -/

/-- C1 (amended): for every well-formed JSON object whose three required
fields `Medication`, `specialization`, `Influence` hold strings and whose
field values all have Python-literal counterparts — in particular no
JSON-only `true`/`false`/`null` among the extra fields — the endpoint
returns a record whose three fields equal the input's, extra fields
ignored. -/
theorem C1_interpret_roundtrip (kvs : JsonObj) (es : List (PyVal × PyVal))
    (hobj : jsonToPyObj kvs = some es) (m s i : String)
    (hm : jsonObjLookup kvs "Medication" = some (JsonVal.str m))
    (hs : jsonObjLookup kvs "specialization" = some (JsonVal.str s))
    (hi : jsonObjLookup kvs "Influence" = some (JsonVal.str i))
    (key : String) :
    medication_info key (Outcome.httpStatus 200
        (mkEnvelope (serializeJson (JsonVal.obj kvs)))) =
      HttpResult.success ⟨m, s, i⟩ := by
  have hjson : jsonToPy (JsonVal.obj kvs) = some (PyVal.dict es) := by
    simp [jsonToPy, hobj]
  have hLE : literalEval (pyStrip (serializeJson (JsonVal.obj kvs))) =
      some (PyVal.dict es) := by
    rw [pyStrip_serializeJson_obj]
    exact literalEval_serializeJson _ _ hjson
  have hg := get_medication_info_parse_ok key _ _ hLE
  have hm' : pyDictLookup es "Medication" = some (PyVal.str m) := by
    rw [(pyDictLookup_jsonToPyObj (sizeOf kvs) kvs le_rfl es hobj
      "Medication").1, hm]
    simp [jsonToPy]
  have hs' : pyDictLookup es "specialization" = some (PyVal.str s) := by
    rw [(pyDictLookup_jsonToPyObj (sizeOf kvs) kvs le_rfl es hobj
      "specialization").1, hs]
    simp [jsonToPy]
  have hi' : pyDictLookup es "Influence" = some (PyVal.str i) := by
    rw [(pyDictLookup_jsonToPyObj (sizeOf kvs) kvs le_rfl es hobj
      "Influence").1, hi]
    simp [jsonToPy]
  exact medication_info_of_ok key _ _ _ hg
    (validateResponse_fields es m s i hm' hs' hi')

/-- C1 witness: a concrete JSON object with the three string fields and an
extra string field round-trips through the endpoint. -/
theorem C1_interpret_roundtrip_witness :
    medication_info "k" (Outcome.httpStatus 200
        (mkEnvelope (serializeJson (JsonVal.obj
          (JsonObj.cons "Medication" (JsonVal.str "A")
            (JsonObj.cons "specialization" (JsonVal.str "B")
              (JsonObj.cons "Influence" (JsonVal.str "C")
                (JsonObj.cons "extra" (JsonVal.str "X") JsonObj.nil)))))))) =
      HttpResult.success ⟨"A", "B", "C"⟩ :=
  C1_interpret_roundtrip
    (JsonObj.cons "Medication" (JsonVal.str "A")
      (JsonObj.cons "specialization" (JsonVal.str "B")
        (JsonObj.cons "Influence" (JsonVal.str "C")
          (JsonObj.cons "extra" (JsonVal.str "X") JsonObj.nil))))
    [(PyVal.str "Medication", PyVal.str "A"),
      (PyVal.str "specialization", PyVal.str "B"),
      (PyVal.str "Influence", PyVal.str "C"),
      (PyVal.str "extra", PyVal.str "X")]
    (by simp [jsonToPyObj, jsonToPy]) "A" "B" "C" rfl rfl rfl "k"

/-- C1 counterexample: a well-formed JSON object with exactly the three
required string fields plus one extra field whose value is the JSON
literal `true` is rejected with HTTP 400 — `ast.literal_eval` does not
accept `true` — so the claim fails as stated for this input. -/
theorem C1_extra_true_counterexample :
    jsonObjLookup (JsonObj.cons "Medication" (JsonVal.str "A")
        (JsonObj.cons "specialization" (JsonVal.str "B")
          (JsonObj.cons "Influence" (JsonVal.str "C")
            (JsonObj.cons "extra" (JsonVal.bool true) JsonObj.nil))))
        "Medication" = some (JsonVal.str "A") ∧
    jsonObjLookup (JsonObj.cons "Medication" (JsonVal.str "A")
        (JsonObj.cons "specialization" (JsonVal.str "B")
          (JsonObj.cons "Influence" (JsonVal.str "C")
            (JsonObj.cons "extra" (JsonVal.bool true) JsonObj.nil))))
        "specialization" = some (JsonVal.str "B") ∧
    jsonObjLookup (JsonObj.cons "Medication" (JsonVal.str "A")
        (JsonObj.cons "specialization" (JsonVal.str "B")
          (JsonObj.cons "Influence" (JsonVal.str "C")
            (JsonObj.cons "extra" (JsonVal.bool true) JsonObj.nil))))
        "Influence" = some (JsonVal.str "C") ∧
    serializeJson (JsonVal.obj (JsonObj.cons "Medication" (JsonVal.str "A")
        (JsonObj.cons "specialization" (JsonVal.str "B")
          (JsonObj.cons "Influence" (JsonVal.str "C")
            (JsonObj.cons "extra" (JsonVal.bool true) JsonObj.nil))))) =
      "\x7b\"Medication\":\"A\",\"specialization\":\"B\",\"Influence\":\"C\",\"extra\":true\x7d" ∧
    (medication_info "k" (Outcome.httpStatus 200 (mkEnvelope
        "\x7b\"Medication\":\"A\",\"specialization\":\"B\",\"Influence\":\"C\",\"extra\":true\x7d"))).status
      = 400 := by
  refine ⟨rfl, rfl, rfl, ?_, rfl⟩
  simp [serializeJson, serV, serEntry, serObjTail, escList, escChar]

/-- C2 (amended): when the decoded model text is a mapping missing one of
the required fields, the parse step does not fail — `get_medication_info`
returns the partial mapping — and the caller instead receives a
response-model validation failure (HTTP 500, FastAPI's
`ResponseValidationError`), never a partially populated record. -/
theorem C2_missing_field_behavior (key t : String)
    (es : List (PyVal × PyVal))
    (hparse : literalEval (pyStrip t) = some (PyVal.dict es))
    (hmiss : pyDictLookup es "Medication" = Option.none ∨
      pyDictLookup es "specialization" = Option.none ∨
      pyDictLookup es "Influence" = Option.none) :
    get_medication_info key (Outcome.httpStatus 200 (mkEnvelope t)) =
      .ok (PyVal.dict es) ∧
    medication_info key (Outcome.httpStatus 200 (mkEnvelope t)) =
      HttpResult.serverError := by
  have hg := get_medication_info_parse_ok key _ _ hparse
  refine ⟨hg, medication_info_of_invalid key _ _ hg ?_⟩
  apply validateResponse_none
  rcases hmiss with h | h | h
  · exact Or.inl (fun m => by simp [h])
  · exact Or.inr (Or.inl (fun m => by simp [h]))
  · exact Or.inr (Or.inr (fun m => by simp [h]))

/-- C2 witness: a mapping with only `Medication` passes the parse step
unchanged and yields the 500-class validation failure. -/
theorem C2_missing_field_behavior_witness :
    get_medication_info "k" (Outcome.httpStatus 200
        (mkEnvelope "\x7b\"Medication\": \"A\"\x7d")) =
      .ok (PyVal.dict [(PyVal.str "Medication", PyVal.str "A")]) ∧
    medication_info "k" (Outcome.httpStatus 200
        (mkEnvelope "\x7b\"Medication\": \"A\"\x7d")) =
      HttpResult.serverError :=
  C2_missing_field_behavior "k" "\x7b\"Medication\": \"A\"\x7d"
    [(PyVal.str "Medication", PyVal.str "A")] rfl
    (Or.inr (Or.inl rfl))

/-- C2 counterexample: for text missing two required fields the response
interpretation does not fail at all — `get_medication_info` returns the
partial mapping — refuting "fails with a MissingFields parse error"; the
endpoint then fails at response-model validation with HTTP 500, not with
any parse error. -/
theorem C2_missing_field_counterexample :
    get_medication_info "k" (Outcome.httpStatus 200
        (mkEnvelope "\x7b\"Medication\": \"A\"\x7d")) =
      .ok (PyVal.dict [(PyVal.str "Medication", PyVal.str "A")]) ∧
    (medication_info "k" (Outcome.httpStatus 200
        (mkEnvelope "\x7b\"Medication\": \"A\"\x7d"))).status = 500 :=
  ⟨rfl, rfl⟩

/-- C3 (amended): the code strips only whitespace, not markdown code
fences; for every text wrapped in fence markers the parse step fails and
the endpoint returns the Malformed-class 400 error, unlike the unwrapped
case. -/
theorem C3_fenced_text_malformed (key lang t : String) :
    medication_info key (Outcome.httpStatus 200
        (mkEnvelope (fenceWrap lang t))) =
      HttpResult.clientError
        ("Could not retrieve medication information: " ++
          ("Failed to parse dict from model output: " ++
            fenceWrap lang t)) := by
  have hb : (fenceWrap lang t).data.head? = some (Char.ofNat 96) := by
    rw [fenceWrap_data]
    rfl
  have hLE : literalEval (pyStrip (fenceWrap lang t)) = Option.none := by
    rw [pyStrip_fenceWrap]
    exact literalEval_backtick _ hb
  have hg := get_medication_info_parse_err key _ hLE
  rw [medication_info_of_error key _ _ hg]
  simp [Exc.message, pyStrip_fenceWrap]

/-- C3 counterexample: a record object parses and succeeds unwrapped, but
the identical object wrapped in markdown code fences is rejected with a
400 parse error, refuting "succeeds identically to the unwrapped case". -/
theorem C3_fenced_text_counterexample :
    medication_info "k" (Outcome.httpStatus 200 (mkEnvelope
        "\x7b\"Medication\": \"A\", \"specialization\": \"B\", \"Influence\": \"C\"\x7d")) =
      HttpResult.success ⟨"A", "B", "C"⟩ ∧
    (medication_info "k" (Outcome.httpStatus 200 (mkEnvelope (fenceWrap "json"
        "\x7b\"Medication\": \"A\", \"specialization\": \"B\", \"Influence\": \"C\"\x7d")))).status
      = 400 :=
  ⟨rfl, rfl⟩

/-- C4 (confirmed): for every model text that is not a valid literal after
the whitespace cleanup, the endpoint fails with the Malformed-class error
(the `ValueError` path surfaced as HTTP 400), with no further recovery. -/
theorem C4_malformed_parse_error (key t : String)
    (h : literalEval (pyStrip t) = Option.none) :
    medication_info key (Outcome.httpStatus 200 (mkEnvelope t)) =
      HttpResult.clientError
        ("Could not retrieve medication information: " ++
          ("Failed to parse dict from model output: " ++ pyStrip t)) := by
  have hg := get_medication_info_parse_err key _ h
  rw [medication_info_of_error key _ _ hg]
  rfl

/-- C4 witness: the truncated text of an opening brace is malformed and is
surfaced as the 400 parse error. -/
theorem C4_malformed_parse_error_witness :
    literalEval (pyStrip "\x7b") = Option.none ∧
    medication_info "k" (Outcome.httpStatus 200 (mkEnvelope "\x7b")) =
      HttpResult.clientError
        ("Could not retrieve medication information: " ++
          ("Failed to parse dict from model output: " ++ pyStrip "\x7b")) :=
  ⟨rfl, C4_malformed_parse_error "k" "\x7b" rfl⟩

/-- C5 (amended): a required field present with a non-string value is not
detected by any parse-step check — there is no TypeMismatch error in the
code; `get_medication_info` returns the mapping unchanged and the
rejection happens only at response-model serialization (HTTP 500 under
pydantic's strict string typing). -/
theorem C5_nonstring_field_behavior (key t : String)
    (es : List (PyVal × PyVal)) (v : PyVal)
    (hparse : literalEval (pyStrip t) = some (PyVal.dict es))
    (hv : pyDictLookup es "Medication" = some v)
    (hnotstr : ∀ m : String, v ≠ PyVal.str m) :
    get_medication_info key (Outcome.httpStatus 200 (mkEnvelope t)) =
      .ok (PyVal.dict es) ∧
    medication_info key (Outcome.httpStatus 200 (mkEnvelope t)) =
      HttpResult.serverError := by
  have hg := get_medication_info_parse_ok key _ _ hparse
  refine ⟨hg, medication_info_of_invalid key _ _ hg ?_⟩
  apply validateResponse_none
  refine Or.inl (fun m hEq => ?_)
  rw [hv] at hEq
  exact hnotstr m (by injection hEq)

/-- C5 witness: a numeric `Medication` value passes the parse step and is
rejected only by the response-model validation. -/
theorem C5_nonstring_field_behavior_witness :
    get_medication_info "k" (Outcome.httpStatus 200 (mkEnvelope
        "\x7b\"Medication\": 5, \"specialization\": \"B\", \"Influence\": \"C\"\x7d")) =
      .ok (PyVal.dict [(PyVal.str "Medication", PyVal.int 5),
        (PyVal.str "specialization", PyVal.str "B"),
        (PyVal.str "Influence", PyVal.str "C")]) ∧
    medication_info "k" (Outcome.httpStatus 200 (mkEnvelope
        "\x7b\"Medication\": 5, \"specialization\": \"B\", \"Influence\": \"C\"\x7d")) =
      HttpResult.serverError :=
  C5_nonstring_field_behavior "k"
    "\x7b\"Medication\": 5, \"specialization\": \"B\", \"Influence\": \"C\"\x7d"
    [(PyVal.str "Medication", PyVal.int 5),
      (PyVal.str "specialization", PyVal.str "B"),
      (PyVal.str "Influence", PyVal.str "C")]
    (PyVal.int 5) rfl rfl (fun m h => by injection h)

/-- C5 counterexample: with `Medication` holding the number 5, the
interpretation does not fail with any TypeMismatch parse error — the parse
step returns the mapping — and the eventual failure is the 500-class
response validation, refuting the claim as stated. -/
theorem C5_nonstring_field_counterexample :
    get_medication_info "k" (Outcome.httpStatus 200 (mkEnvelope
        "\x7b\"Medication\": 5, \"specialization\": \"B\", \"Influence\": \"C\"\x7d")) =
      .ok (PyVal.dict [(PyVal.str "Medication", PyVal.int 5),
        (PyVal.str "specialization", PyVal.str "B"),
        (PyVal.str "Influence", PyVal.str "C")]) ∧
    (medication_info "k" (Outcome.httpStatus 200 (mkEnvelope
        "\x7b\"Medication\": 5, \"specialization\": \"B\", \"Influence\": \"C\"\x7d"))).status
      = 500 :=
  ⟨rfl, rfl⟩

/-- Helper: cancelling a common prefix of two equal strings. -/
theorem string_append_cancel_left {a b c : String} (h : a ++ b = a ++ c) :
    b = c := by
  have hd := congrArg String.data h
  simp only [String.data_append] at hd
  have h2 := List.append_cancel_left hd
  cases b
  cases c
  exact congrArg String.mk h2

/-- Helper: the handler's detail string for an upstream HTTP error is a
fixed prefix followed by the API key. -/
theorem upstream_detail_form (code : Nat) (k : String) :
    ("Could not retrieve medication information: " ++
      ("API request failed: " ++ httpErrorMsg code k)) =
    ("Could not retrieve medication information: API request failed: " ++
      toString code ++
      " Error for url: https://generativelanguage.googleapis.com/v1beta/models/gemini-2.0-flash:generateContent?key=")
      ++ k := by
  have hstr : ∀ a b : String, a.data = b.data → a = b := by
    intro a b h
    cases a
    cases b
    exact congrArg String.mk h
  apply hstr
  have h1 : ∀ X : List Char,
      ("Could not retrieve medication information: " : String).data ++
        (("API request failed: " : String).data ++ X) =
      ("Could not retrieve medication information: API request failed: "
        : String).data ++ X := by
    intro X
    rw [← List.append_assoc]
    rfl
  have h2 : ∀ X : List Char,
      (" Error for url: " : String).data ++
        (("https://generativelanguage.googleapis.com/v1beta/models/"
          : String).data ++
          (("gemini-2.0-flash:generateContent?key=" : String).data ++ X)) =
      (" Error for url: https://generativelanguage.googleapis.com/v1beta/models/gemini-2.0-flash:generateContent?key="
        : String).data ++ X := by
    intro X
    rw [← List.append_assoc, ← List.append_assoc]
    rfl
  simp [httpErrorMsg, requestUrl, String.data_append, h1, h2]

/-- C6 (amended): every upstream failure — request exception or non-2xx
HTTP status — is surfaced with the same HTTP 400 status that parse errors
receive; the code maps no failure class to a 5xx range. -/
theorem C6_uniform_400 (key msg : String) (code : Nat) (body : JsonVal)
    (hc : 400 ≤ code) (hc6 : code < 600) :
    (medication_info key (Outcome.netFail msg)).status = 400 ∧
    (medication_info key (Outcome.httpStatus code body)).status = 400 := by
  constructor
  · rfl
  · have hg : get_medication_info key (Outcome.httpStatus code body) =
        .error (Exc.runtimeError
          ("API request failed: " ++ httpErrorMsg code key)) := by
      simp only [get_medication_info]
      rw [if_pos ⟨hc, hc6⟩]
    rw [medication_info_of_error key _ _ hg]
    rfl

/-- C6 witness: a 503 upstream status is surfaced as 400. -/
theorem C6_uniform_400_witness :
    ((400 : Nat) ≤ 503 ∧ (503 : Nat) < 600) ∧
    (medication_info "k" (Outcome.netFail "timeout")).status = 400 ∧
    (medication_info "k" (Outcome.httpStatus 503 JsonVal.null)).status
      = 400 :=
  ⟨⟨by decide, by decide⟩,
    C6_uniform_400 "k" "timeout" 503 JsonVal.null (by decide) (by decide)⟩

/-- C6 counterexample: a network failure and a 503 upstream status are
surfaced as HTTP 400 — not any 5xx — and share the 400 range with parse
errors, refuting the claimed distinct status ranges. -/
theorem C6_status_counterexample :
    (medication_info "k" (Outcome.netFail "timeout")).status = 400 ∧
    (medication_info "k" (Outcome.httpStatus 503 JsonVal.null)).status
      = 400 ∧
    (medication_info "k" (Outcome.httpStatus 200
        (mkEnvelope "\x7b"))).status = 400 :=
  ⟨rfl, rfl, rfl⟩

/-- C7 (amended): for upstream HTTP errors the caller-visible detail
embeds the exception message, which carries the full request URL including
the raw API key as its query parameter; the detail is therefore not
independent of the key — distinct keys produce distinct details. -/
theorem C7_detail_depends_on_key (key : String) (code : Nat)
    (body : JsonVal) (hc : 400 ≤ code) (hc6 : code < 600) :
    medication_info key (Outcome.httpStatus code body) =
      HttpResult.clientError
        (("Could not retrieve medication information: API request failed: " ++
          toString code ++
          " Error for url: https://generativelanguage.googleapis.com/v1beta/models/gemini-2.0-flash:generateContent?key=")
          ++ key) ∧
    (∀ key2 : String,
      medication_info key (Outcome.httpStatus code body) =
        medication_info key2 (Outcome.httpStatus code body) →
      key = key2) := by
  have hmain : ∀ k : String,
      medication_info k (Outcome.httpStatus code body) =
        HttpResult.clientError
          (("Could not retrieve medication information: API request failed: " ++
            toString code ++
            " Error for url: https://generativelanguage.googleapis.com/v1beta/models/gemini-2.0-flash:generateContent?key=")
            ++ k) := by
    intro k
    have hg : get_medication_info k (Outcome.httpStatus code body) =
        .error (Exc.runtimeError
          ("API request failed: " ++ httpErrorMsg code k)) := by
      simp only [get_medication_info]
      rw [if_pos ⟨hc, hc6⟩]
    rw [medication_info_of_error k _ _ hg]
    rw [show Exc.message (Exc.runtimeError
        ("API request failed: " ++ httpErrorMsg code k)) =
      "API request failed: " ++ httpErrorMsg code k from rfl]
    rw [upstream_detail_form]
  refine ⟨hmain key, ?_⟩
  intro key2 heq
  rw [hmain key, hmain key2] at heq
  simp only [HttpResult.clientError.injEq] at heq
  exact string_append_cancel_left heq

/-- C7 witness: a 404 upstream response with the key `SECRETKEY1` puts the
key verbatim into the caller-visible error detail. -/
theorem C7_detail_depends_on_key_witness :
    ((400 : Nat) ≤ 404 ∧ (404 : Nat) < 600) ∧
    medication_info "SECRETKEY1" (Outcome.httpStatus 404 JsonVal.null) =
      HttpResult.clientError
        (("Could not retrieve medication information: API request failed: " ++
          toString 404 ++
          " Error for url: https://generativelanguage.googleapis.com/v1beta/models/gemini-2.0-flash:generateContent?key=")
          ++ "SECRETKEY1") :=
  ⟨⟨by decide, by decide⟩,
    (C7_detail_depends_on_key "SECRETKEY1" 404 JsonVal.null (by decide)
      (by decide)).1⟩

set_option maxRecDepth 8192 in
/-- C7 counterexample: the error detail is not independent of the API key
— it ends with the key itself, and two different keys yield different
caller-visible error responses. -/
theorem C7_key_leak_counterexample :
    medication_info "SECRETKEY1" (Outcome.httpStatus 404 JsonVal.null) =
      HttpResult.clientError
        ("Could not retrieve medication information: API request failed: 404 Error for url: https://generativelanguage.googleapis.com/v1beta/models/gemini-2.0-flash:generateContent?key=" ++
          "SECRETKEY1") ∧
    medication_info "SECRETKEY1" (Outcome.httpStatus 404 JsonVal.null) ≠
      medication_info "SECRETKEY2" (Outcome.httpStatus 404 JsonVal.null) :=
  ⟨rfl, by decide⟩

/-- C8 (amended): envelope extraction converts only `KeyError` and
`IndexError` (missing keys, short lists) into the distinct "unexpected
response shape" error; wrongly typed intermediate values raise `TypeError`
— and a non-string `text` raises `AttributeError` — which bypass that
handler and surface as the generic 400. -/
theorem C8_extraction_exception_classes (key : String) (body : JsonVal)
    (e : PyExc) (h : extractText body = .error e) :
    ((e = PyExc.keyError ∨ e = PyExc.indexError) →
      get_medication_info key (Outcome.httpStatus 200 body) =
        .error (Exc.runtimeError "Unexpected API response format")) ∧
    (e = PyExc.typeError →
      get_medication_info key (Outcome.httpStatus 200 body) =
        .error Exc.typeError) ∧
    (e = PyExc.attributeError →
      get_medication_info key (Outcome.httpStatus 200 body) =
        .error Exc.attributeError) := by
  refine ⟨?_, ?_, ?_⟩
  · rintro (rfl | rfl) <;> simp [get_medication_info, h]
  · rintro rfl
    simp [get_medication_info, h]
  · rintro rfl
    simp [get_medication_info, h]

/-- C8 witness: an empty envelope raises `KeyError` and is converted to
the distinct shape error. -/
theorem C8_extraction_exception_classes_witness :
    extractText (JsonVal.obj JsonObj.nil) = .error PyExc.keyError ∧
    get_medication_info "k" (Outcome.httpStatus 200
        (JsonVal.obj JsonObj.nil)) =
      .error (Exc.runtimeError "Unexpected API response format") :=
  ⟨rfl, (C8_extraction_exception_classes "k" (JsonVal.obj JsonObj.nil)
    PyExc.keyError rfl).1 (Or.inl rfl)⟩

/-- C8 counterexample: an envelope whose `candidates` field holds a number
raises `TypeError`, which is not caught by the `except (KeyError,
IndexError)` handler, so the failure is not the distinct "unexpected
response shape" error. -/
theorem C8_typeerror_counterexample :
    extractText (JsonVal.obj (JsonObj.cons "candidates" (JsonVal.int 42)
        JsonObj.nil)) = .error PyExc.typeError ∧
    get_medication_info "k" (Outcome.httpStatus 200
        (JsonVal.obj (JsonObj.cons "candidates" (JsonVal.int 42)
          JsonObj.nil))) = .error Exc.typeError ∧
    Exc.typeError ≠ Exc.runtimeError "Unexpected API response format" :=
  ⟨rfl, rfl, by decide⟩

/-- C9 (amended): startup loads the key once via `get_required_env`, which
succeeds exactly when `GEMINI_API_KEY` is present with a non-empty value;
it fails fast both when the variable is absent and when it is present but
empty, because the empty string is falsy in the `if not value` check. -/
theorem C9_startup_key_characterization (env : String → Option String) :
    (∀ v, startupLoadKey env = Except.ok v ↔
      (env "GEMINI_API_KEY" = some v ∧ v ≠ "")) ∧
    ((∃ e, startupLoadKey env = Except.error e) ↔
      (env "GEMINI_API_KEY" = Option.none ∨
        env "GEMINI_API_KEY" = some "")) := by
  cases henv : env "GEMINI_API_KEY" with
  | none =>
    simp only [startupLoadKey, get_required_env, henv]
    constructor
    · intro v
      simp
    · simp
  | some w =>
    simp only [startupLoadKey, get_required_env, henv]
    by_cases hw : w = ""
    · subst hw
      constructor
      · intro v
        simp only [if_pos rfl]
        constructor
        · intro hcontra
          exact absurd hcontra (by simp)
        · rintro ⟨hv, hne⟩
          simp at hv
          exact absurd hv.symm hne
      · simp
    · constructor
      · intro v
        simp only [if_neg hw]
        constructor
        · intro hok
          have : w = v := by
            injection hok
          subst this
          exact ⟨rfl, hw⟩
        · rintro ⟨hv, -⟩
          simp at hv
          subst hv
          rfl
      · simp [if_neg hw, hw]

/-- C9 counterexample: with `GEMINI_API_KEY` present but set to the empty
string, startup still fails — refuting "startup fails exactly when the
variable is absent; when it is present, startup succeeds". -/
theorem C9_empty_key_counterexample :
    (fun v => if v = "GEMINI_API_KEY" then some "" else Option.none)
        "GEMINI_API_KEY" = some "" ∧
    startupLoadKey
        (fun v => if v = "GEMINI_API_KEY" then some "" else Option.none) =
      Except.error "Missing GEMINI_API_KEY in environment" :=
  ⟨rfl, rfl⟩

/-- C10 (confirmed): the parse step accepts any Python literal and returns
it without checking that it is a mapping: whatever `ast.literal_eval`
produces is returned as the result of `get_medication_info`, and for a
bare string or number the returned value is not a dict. -/
theorem C10_parse_any_literal :
    (∀ (key t : String) (v : PyVal), literalEval (pyStrip t) = some v →
      get_medication_info key (Outcome.httpStatus 200 (mkEnvelope t)) =
        .ok v) ∧
    get_medication_info "k" (Outcome.httpStatus 200
        (mkEnvelope "\"hello\"")) = .ok (PyVal.str "hello") ∧
    get_medication_info "k" (Outcome.httpStatus 200 (mkEnvelope "42")) =
      .ok (PyVal.int 42) ∧
    (∀ es, PyVal.str "hello" ≠ PyVal.dict es) := by
  refine ⟨?_, rfl, rfl, ?_⟩
  · intro key t v h
    exact get_medication_info_parse_ok key t v h
  · intro es
    simp

/-- C10 witness: the bare number text parses and is returned although it
is not a mapping. -/
theorem C10_parse_any_literal_witness :
    literalEval (pyStrip "42") = some (PyVal.int 42) ∧
    get_medication_info "k" (Outcome.httpStatus 200 (mkEnvelope "42")) =
      .ok (PyVal.int 42) :=
  ⟨rfl, C10_parse_any_literal.1 "k" "42" (PyVal.int 42) rfl⟩

end Medication
